import Mathlib

/-!
Verification of the Chesster match engine specification against the source
files under src: the human move source (chesster/ai/human.py), the basic
timer (chesster/timer/basic.py) and the command line entry point
(chesster/cli/__init__.py). Components of the repository that are not under
src (the BaseTimer update operation and the match loop) are modelled from
the specification, as noted on the corresponding definitions.
-/

set_option maxHeartbeats 1000000
set_option linter.unusedVariables false

/-- Remaining-time value of a timer: a finite number of seconds or the
unbounded marker (the source uses the floating sentinel np.inf, which the
specification, section 9, asks to model as a tagged value). -/
inductive TimerVal where
  | finite (q : ℚ)
  | unbounded
deriving DecidableEq, Repr

/-- Modelled from the spec: the BaseTimer state (the file
chesster/timer/base.py is not under src). Spec section 3: attributes
time_clocked, seconds_left and increment. -/
structure Timer where
  time_clocked : ℚ
  seconds_left : TimerVal
  increment : ℚ
deriving DecidableEq, Repr

/-- Modelled from the spec: the timer update operation of BaseTimer, spec
section 4.1: add the elapsed seconds e to time_clocked; a finite remaining
budget becomes max 0 (seconds_left - e) + increment when the move completes
before expiry, and is pinned at 0 when e is at least seconds_left; an
unbounded budget is never decremented. -/
def Timer.update (t : Timer) (e : ℚ) : Timer :=
  { t with
    time_clocked := t.time_clocked + e
    seconds_left :=
      match t.seconds_left with
      | TimerVal.unbounded => TimerVal.unbounded
      | TimerVal.finite r =>
          if e < r then TimerVal.finite (max 0 (r - e) + t.increment)
          else TimerVal.finite 0 }

/-- The BasicTimer constructor, from src chesster/timer/basic.py: it accepts
its two positional arguments through a star-args parameter, ignores them, and
calls the base constructor with np.inf and 0, so the resulting timer has an
unbounded budget, increment 0 and nothing clocked yet. -/
def BasicTimer.init (start_seconds increment_seconds : ℚ) : Timer :=
  { time_clocked := 0, seconds_left := TimerVal.unbounded, increment := 0 }

/-- Modelled from the spec: the move value of the external rules oracle, spec
section 6: a from square, a to square and an optional promotion; the library
treats a move as truthy exactly when some field is set. -/
structure Move where
  fromSq : Nat
  toSq : Nat
  promo : Option Nat
deriving DecidableEq, Repr

/-- The null move sentinel of the rules oracle. -/
def Move.null : Move := { fromSq := 0, toSq := 0, promo := none }

/-- Truthiness of a move, mirroring the boolean conversion the source applies
in the loop condition of Human.make_move: a move is truthy when any of its
fields is set, so exactly the null move is falsy. -/
def Move.isTruthy (m : Move) : Bool :=
  (m.fromSq != 0) || (m.toSq != 0) || m.promo.isSome

/-- Modelled from the spec: the interface of the external rules oracle, spec
section 6: a legality predicate on the current board, and UCI move parsing
that fails distinguishably (the source catches the ValueError of
chess.Move.from_uci). -/
structure Oracle (B : Type) where
  is_legal : B → Move → Bool
  from_uci : String → Except String Move

/-- Console messages printed by Human.make_move: the input prompt, the two
rejection messages, and the remaining-time line printed with each
rejection. -/
inductive Msg where
  | prompt
  | illegalMove
  | incorrectFormat
  | secondsLeft (v : TimerVal)
deriving DecidableEq, Repr

/-- The board and timer arguments handed to Human.make_move. -/
structure HumanState (B : Type) where
  board : B
  timer : Timer

/-- Result of a run of Human.make_move on a list of pending input strings:
the selected move (none when the input stream is exhausted before a legal
move is obtained), the console output, and the board and timer as the call
leaves them behind. -/
structure HumanResult (B : Type) where
  move : Option Move
  output : List Msg
  board : B
  timer : Timer

/-- The loop of Human.make_move, from src chesster/ai/human.py: while the
current move is falsy, prompt for one input string, parse it as UCI catching
the parse failure, reset a well-formed but illegal move to the null move, and
report each rejection together with timer.seconds_left. The board and the
timer are only read, and are threaded through unchanged. -/
def makeMoveLoop {B : Type} (o : Oracle B) (s : HumanState B)
    (move : Move) (inputs : List String) : HumanResult B :=
  if Move.isTruthy move then
    { move := some move, output := [], board := s.board, timer := s.timer }
  else
    match inputs with
    | [] => { move := none, output := [], board := s.board, timer := s.timer }
    | uci :: rest =>
      match o.from_uci uci with
      | Except.ok m =>
        if o.is_legal s.board m then
          let r := makeMoveLoop o s m rest
          { r with output := Msg.prompt :: r.output }
        else
          let r := makeMoveLoop o s Move.null rest
          { r with output := Msg.prompt :: Msg.illegalMove ::
              Msg.secondsLeft s.timer.seconds_left :: r.output }
      | Except.error _ =>
        let r := makeMoveLoop o s move rest
        { r with output := Msg.prompt :: Msg.incorrectFormat ::
            Msg.secondsLeft s.timer.seconds_left :: r.output }

/-- Human.make_move, from src chesster/ai/human.py: default the move to the
null move and loop until the user supplies a move the oracle accepts. -/
def Human.make_move {B : Type} (o : Oracle B) (s : HumanState B)
    (inputs : List String) : HumanResult B :=
  makeMoveLoop o s Move.null inputs

/-- Outcome of one game of a match. -/
inductive GOutcome where
  | whiteWins
  | blackWins
  | draw
deriving DecidableEq, Repr

/-- The two player colors. -/
inductive Color where
  | white
  | black
deriving DecidableEq, Repr

/-- Modelled from the spec: the per-game tally update of the match, spec
section 4.3 step 8: the winning side gains one win, a draw changes no
tally. -/
def tallyStep : Nat × Nat → GOutcome → Nat × Nat
  | (w, b), GOutcome.whiteWins => (w + 1, b)
  | (w, b), GOutcome.blackWins => (w, b + 1)
  | (w, b), GOutcome.draw => (w, b)

/-- Modelled from the spec: the outer loop of the match, spec section 4.3
steps 8 and 9 (the match module is not under src). Games are abstracted by
their outcomes, supplied as a list; if the win-count threshold is met by
either side the match ends reporting that side, otherwise the next game is
played on a fresh copy of the initial board ib, which is logged per game
played. The loop returns the final tallies, the reported winner (none when
the supplied outcomes run out first) and the log of initial boards used. -/
def playMatchLoop {B : Type} (n : Nat) (ib : B) (t : Nat × Nat)
    (games : List GOutcome) : (Nat × Nat) × Option Color × List B :=
  if n ≤ t.1 then (t, some Color.white, [])
  else if n ≤ t.2 then (t, some Color.black, [])
  else
    match games with
    | [] => (t, none, [])
    | g :: rest =>
      let r := playMatchLoop n ib (tallyStep t g) rest
      (r.1, r.2.1, ib :: r.2.2)

/-- Modelled from the spec: play_match starting from zero tallies. -/
def play_match {B : Type} (n : Nat) (ib : B) (games : List GOutcome) :
    (Nat × Nat) × Option Color × List B :=
  playMatchLoop n ib (0, 0) games

/-- Modelled from the spec: the Match owns the two move sources and one
timer instance per player (spec section 2; the match module is not under
src). -/
structure MatchSt (AI : Type) where
  whiteAI : AI
  blackAI : AI
  whiteTimer : Timer
  blackTimer : Timer
  winsRequired : Nat

/-- Modelled from the spec: match construction as invoked by main: each
player receives its own timer holding the budget and increment of the base
timer that main built. -/
def mkMatch {AI : Type} (w b : AI) (t : Timer) (wins : Nat) : MatchSt AI :=
  { whiteAI := w, blackAI := b, whiteTimer := t, blackTimer := t,
    winsRequired := wins }

/-- Named configuration failures raised by main, from src
chesster/cli/init: NonExistentAI, NonExistentTimer and NonExistentMatch,
plus the PermissionError the interface also handles. -/
inductive MainErr where
  | nonExistentAI (name : String)
  | nonExistentTimer (name : String)
  | nonExistentMatch (name : String)
  | permissionDenied
deriving DecidableEq, Repr

/-- The configuration arguments of main that reach the core. The
presentation-only options (image directories, gif output, window size, win
screen time) feed only the excluded display collaborator and are omitted. -/
structure Config where
  white : String
  black : String
  display_mode : String
  timer : String
  start_seconds : ℚ
  increment_seconds : ℚ
  wins_required : Nat
  record_file : Option String

/-- Observable side effects of main: the call to match.play_match and file
writes of the serialized record (the json document is abstracted by J). -/
inductive Effect (J : Type) where
  | playedMatch
  | wroteFile (path : String) (doc : J)
deriving DecidableEq, Repr

/-- The setup phase of main (lines 81 to 113 of src chesster/cli/init): look
up the white AI, then the black AI, then the timer, then the display mode,
turning a failed lookup into the corresponding named failure; on success
construct the match from the timer built with the configured start and
increment seconds. The registries are parameters because the registry
modules are not under src; per spec section 9 they are string keyed maps. -/
def mainSetup {AI M : Type} (AIs : String → Option AI)
    (timers : String → Option (ℚ → ℚ → Timer))
    (match_modes : String → Option M) (cfg : Config) :
    Except MainErr (MatchSt AI) :=
  match AIs cfg.white with
  | none => Except.error (MainErr.nonExistentAI cfg.white)
  | some white_ai =>
    match AIs cfg.black with
    | none => Except.error (MainErr.nonExistentAI cfg.black)
    | some black_ai =>
      match timers cfg.timer with
      | none => Except.error (MainErr.nonExistentTimer cfg.timer)
      | some timer_ctor =>
        match match_modes cfg.display_mode with
        | none => Except.error (MainErr.nonExistentMatch cfg.display_mode)
        | some _ =>
          Except.ok (mkMatch white_ai black_ai
            (timer_ctor cfg.start_seconds cfg.increment_seconds)
            cfg.wins_required)

/-- The function main, from src chesster/cli/init: run the setup lookups,
play the match, compute the winner color string (which is unused), write the
serialized record to record_file when one is configured, and return exit
code 0. The first component is the log of observable effects; a setup
failure raises before any game is played, so its effect log is empty. The
match play and record serialization are the abstract collaborators play and
recordDict. -/
def Chesster.main {AI M J : Type} (AIs : String → Option AI)
    (timers : String → Option (ℚ → ℚ → Timer))
    (match_modes : String → Option M)
    (play : MatchSt AI → Color × MatchSt AI)
    (recordDict : MatchSt AI → J) (cfg : Config) :
    List (Effect J) × Except MainErr Nat :=
  match mainSetup AIs timers match_modes cfg with
  | Except.error e => ([], Except.error e)
  | Except.ok m =>
    let winner := (play m).1
    let _color := if winner = Color.white then "White" else "Black"
    let writes :=
      match cfg.record_file with
      | none => ([] : List (Effect J))
      | some p => [Effect.wroteFile p (recordDict (play m).2)]
    (Effect.playedMatch :: writes, Except.ok 0)

/-- Outcome of running cli_interface: a process exit with a status code, or
an exception no handler of the function catches. -/
inductive CliOutcome where
  | exited (code : Nat)
  | uncaught (e : MainErr)
deriving DecidableEq, Repr

/-- The function cli_interface (lines 182 to 199 of src chesster/cli/init):
run main and exit with its return code; NonExistentAI exits with status 1,
NonExistentTimer with status 2 and PermissionError with status 4; any other
exception, in particular NonExistentMatch, has no handler and propagates out
of the function. -/
def cli_interface {AI M J : Type} (AIs : String → Option AI)
    (timers : String → Option (ℚ → ℚ → Timer))
    (match_modes : String → Option M)
    (play : MatchSt AI → Color × MatchSt AI)
    (recordDict : MatchSt AI → J) (cfg : Config) : CliOutcome :=
  match (Chesster.main AIs timers match_modes play recordDict cfg).2 with
  | Except.ok c => CliOutcome.exited c
  | Except.error (MainErr.nonExistentAI _) => CliOutcome.exited 1
  | Except.error (MainErr.nonExistentTimer _) => CliOutcome.exited 2
  | Except.error MainErr.permissionDenied => CliOutcome.exited 4
  | Except.error e => CliOutcome.uncaught e

/-- A one-entry AI registry used to evaluate the theorems on concrete
configurations. -/
def stubAIs : String → Option Unit :=
  fun s => if s = "random" then some () else none

/-- A one-entry timer registry holding BasicTimer under its source key. -/
def stubTimers : String → Option (ℚ → ℚ → Timer) :=
  fun s => if s = "BasicTimer" then some BasicTimer.init else none

/-- A one-entry display-mode registry holding the visual mode. -/
def stubModes : String → Option Unit :=
  fun s => if s = "visual" then some () else none

/-- A concrete match-play collaborator: white wins, state unchanged. -/
def stubPlay : MatchSt Unit → Color × MatchSt Unit :=
  fun m => (Color.white, m)

/-- A concrete record serializer producing a fixed document. -/
def stubRecordDict : MatchSt Unit → Nat := fun _ => 7

/-- A configuration whose every lookup succeeds in the stub registries. -/
def goodConfig : Config :=
  { white := "random", black := "random", display_mode := "visual",
    timer := "BasicTimer", start_seconds := 600, increment_seconds := 2,
    wins_required := 1, record_file := none }

/-- goodConfig with an unknown white AI name. -/
def badWhiteConfig : Config := { goodConfig with white := "alphazero" }

/-- goodConfig with an unknown timer name. -/
def badTimerConfig : Config := { goodConfig with timer := "SuddenDeath" }

/-- goodConfig with an unknown display-mode name. -/
def badModeConfig : Config := { goodConfig with display_mode := "headless" }

/-- goodConfig with a record file configured. -/
def recordConfig : Config := { goodConfig with record_file := some ("out.json") }

/-- A concrete legal move for the sample oracle. -/
def sampleMove : Move := { fromSq := 12, toSq := 28, promo := none }

/-- A concrete rules oracle over a trivial board: exactly sampleMove is
legal, the string e2e4 parses to it, the string 0000 parses to the null
move, and everything else fails to parse. -/
def sampleOracle : Oracle Unit :=
  { is_legal := fun _ m => decide (m = sampleMove)
    from_uci := fun s =>
      if s = "e2e4" then Except.ok sampleMove
      else if s = "0000" then Except.ok Move.null
      else Except.error ("invalid uci") }

/-- A concrete finite timer: 10 seconds left, increment 2. -/
def sampleTimer : Timer :=
  { time_clocked := 0, seconds_left := TimerVal.finite 10, increment := 2 }

/-- A concrete state for Human.make_move over the trivial board. -/
def sampleState : HumanState Unit := { board := (), timer := sampleTimer }

/-- An update of a timer with an unbounded budget leaves the budget
unbounded and only adds the elapsed time to time_clocked. -/
theorem Timer.update_unbounded (t : Timer) (e : ℚ)
    (h : t.seconds_left = TimerVal.unbounded) :
    (Timer.update t e).seconds_left = TimerVal.unbounded ∧
    (Timer.update t e).time_clocked = t.time_clocked + e := by
  simp [Timer.update, h]

/-- Folding updates over a timer with an unbounded budget keeps the budget
unbounded and accumulates exactly the sum of the elapsed times. -/
theorem Timer.foldl_update_unbounded :
    ∀ (es : List ℚ) (t : Timer), t.seconds_left = TimerVal.unbounded →
      ((es.foldl Timer.update t).seconds_left = TimerVal.unbounded ∧
       (es.foldl Timer.update t).time_clocked = t.time_clocked + es.sum) := by
  intro es
  induction es with
  | nil => intro t h; simp [h]
  | cons e rest ih =>
    intro t h
    have hu := Timer.update_unbounded t e h
    have hr := ih (Timer.update t e) hu.1
    refine ⟨by simpa using hr.1, ?_⟩
    simp only [List.foldl_cons, List.sum_cons]
    rw [hr.2, hu.2]
    ring

/-- C6: an unbounded timer never reaches a forfeiting state: BasicTimer
starts unbounded, and for every sequence of update operations with arbitrary
elapsed times its remaining budget stays the unbounded marker, in particular
it never becomes any finite value such as zero, and the updates only
accumulate time_clocked. -/
theorem basicTimer_never_forfeits (s i : ℚ) (es : List ℚ) :
    (es.foldl Timer.update (BasicTimer.init s i)).seconds_left
        = TimerVal.unbounded
    ∧ (∀ r : ℚ, (es.foldl Timer.update (BasicTimer.init s i)).seconds_left
        ≠ TimerVal.finite r)
    ∧ (es.foldl Timer.update (BasicTimer.init s i)).time_clocked = es.sum := by
  have h := Timer.foldl_update_unbounded es (BasicTimer.init s i) rfl
  refine ⟨h.1, ?_, ?_⟩
  · intro r hr
    rw [h.1] at hr
    exact TimerVal.noConfusion hr
  · simpa [BasicTimer.init] using h.2

/-- C7: for a timer with a finite remaining budget r, an update with elapsed
seconds e adds e to time_clocked, sets the remaining budget to
r - e + increment when e is smaller than r, and pins the remaining budget to
0 when e is at least r. -/
theorem timer_update_finite (t : Timer) (r e : ℚ)
    (h : t.seconds_left = TimerVal.finite r) :
    (Timer.update t e).time_clocked = t.time_clocked + e
    ∧ (e < r → (Timer.update t e).seconds_left
        = TimerVal.finite (r - e + t.increment))
    ∧ (r ≤ e → (Timer.update t e).seconds_left = TimerVal.finite 0) := by
  refine ⟨by simp [Timer.update], ?_, ?_⟩
  · intro hlt
    have hmax : max (0 : ℚ) (r - e) = r - e := max_eq_right (by linarith)
    simp [Timer.update, h, hlt, hmax]
  · intro hle
    have hnlt : ¬ e < r := not_lt.mpr hle
    simp [Timer.update, h, hnlt]

/-- Witness for C7, on the concrete ten-second timer with increment two:
a three-second move leaves nine seconds, a twelve-second move pins the
budget at zero, and both add the elapsed time to the clocked total. -/
theorem timer_update_finite_witness :
    (Timer.update sampleTimer 3).time_clocked = 0 + 3
    ∧ (Timer.update sampleTimer 3).seconds_left = TimerVal.finite (10 - 3 + 2)
    ∧ (Timer.update sampleTimer 12).seconds_left = TimerVal.finite 0 :=
  ⟨(timer_update_finite sampleTimer 10 3 rfl).1,
   (timer_update_finite sampleTimer 10 3 rfl).2.1 (by norm_num),
   (timer_update_finite sampleTimer 10 12 rfl).2.2 (by norm_num)⟩

/-- The loop returns a truthy move unchanged without consuming input. -/
theorem makeMoveLoop_truthy {B : Type} (o : Oracle B) (s : HumanState B)
    (move : Move) (inputs : List String) (h : Move.isTruthy move = true) :
    makeMoveLoop o s move inputs =
      { move := some move, output := [], board := s.board,
        timer := s.timer } := by
  cases inputs <;> simp [makeMoveLoop, h]

/-- On a falsy move and exhausted input the loop reports no move. -/
theorem makeMoveLoop_nil {B : Type} (o : Oracle B) (s : HumanState B)
    (move : Move) (h : Move.isTruthy move = false) :
    makeMoveLoop o s move [] =
      { move := none, output := [], board := s.board, timer := s.timer } := by
  simp [makeMoveLoop, h]

/-- A malformed input is consumed: the parse failure is caught, the format
message and the remaining time are printed, and the loop continues on the
remaining inputs with the move variable unchanged. -/
theorem makeMoveLoop_parse_failure {B : Type} (o : Oracle B)
    (s : HumanState B) (move : Move) (uci : String) (rest : List String)
    (err : String) (h : Move.isTruthy move = false)
    (hu : o.from_uci uci = Except.error err) :
    makeMoveLoop o s move (uci :: rest) =
      { makeMoveLoop o s move rest with
        output := Msg.prompt :: Msg.incorrectFormat ::
          Msg.secondsLeft s.timer.seconds_left ::
          (makeMoveLoop o s move rest).output } := by
  simp [makeMoveLoop, h, hu]

/-- A well-formed move the oracle accepts becomes the current move and the
loop continues with it. -/
theorem makeMoveLoop_ok_legal {B : Type} (o : Oracle B) (s : HumanState B)
    (move : Move) (uci : String) (rest : List String) (m : Move)
    (h : Move.isTruthy move = false) (hu : o.from_uci uci = Except.ok m)
    (hleg : o.is_legal s.board m = true) :
    makeMoveLoop o s move (uci :: rest) =
      { makeMoveLoop o s m rest with
        output := Msg.prompt :: (makeMoveLoop o s m rest).output } := by
  simp [makeMoveLoop, h, hu, hleg]

/-- A well-formed move the oracle rejects is reported as illegal together
with the remaining time, the move variable is reset to the null move, and
the loop continues on the remaining inputs. -/
theorem makeMoveLoop_ok_illegal {B : Type} (o : Oracle B) (s : HumanState B)
    (move : Move) (uci : String) (rest : List String) (m : Move)
    (h : Move.isTruthy move = false) (hu : o.from_uci uci = Except.ok m)
    (hleg : o.is_legal s.board m = false) :
    makeMoveLoop o s move (uci :: rest) =
      { makeMoveLoop o s Move.null rest with
        output := Msg.prompt :: Msg.illegalMove ::
          Msg.secondsLeft s.timer.seconds_left ::
          (makeMoveLoop o s Move.null rest).output } := by
  simp [makeMoveLoop, h, hu, hleg]

/-- The loop leaves the board and the timer of its state unchanged. -/
theorem makeMoveLoop_frame {B : Type} (o : Oracle B) (s : HumanState B) :
    ∀ (inputs : List String) (move : Move),
      (makeMoveLoop o s move inputs).board = s.board ∧
      (makeMoveLoop o s move inputs).timer = s.timer := by
  intro inputs
  induction inputs with
  | nil =>
    intro move
    cases h : Move.isTruthy move with
    | true => rw [makeMoveLoop_truthy o s move [] h]; exact ⟨rfl, rfl⟩
    | false => rw [makeMoveLoop_nil o s move h]; exact ⟨rfl, rfl⟩
  | cons uci rest ih =>
    intro move
    cases h : Move.isTruthy move with
    | true =>
      rw [makeMoveLoop_truthy o s move (uci :: rest) h]; exact ⟨rfl, rfl⟩
    | false =>
      cases hu : o.from_uci uci with
      | error err =>
        rw [makeMoveLoop_parse_failure o s move uci rest err h hu]
        simpa using ih move
      | ok m =>
        cases hleg : o.is_legal s.board m with
        | true =>
          rw [makeMoveLoop_ok_legal o s move uci rest m h hu hleg]
          simpa using ih m
        | false =>
          rw [makeMoveLoop_ok_illegal o s move uci rest m h hu hleg]
          simpa using ih Move.null

/-- Starting from a falsy move, whenever the loop reports a move, that move
is accepted by the legality predicate of the oracle and is truthy. -/
theorem makeMoveLoop_legal {B : Type} (o : Oracle B) (s : HumanState B) :
    ∀ (inputs : List String) (move : Move), Move.isTruthy move = false →
      ∀ m, (makeMoveLoop o s move inputs).move = some m →
        o.is_legal s.board m = true ∧ Move.isTruthy m = true := by
  intro inputs
  induction inputs with
  | nil =>
    intro move hmv m hres
    rw [makeMoveLoop_nil o s move hmv] at hres
    exact absurd hres (by simp)
  | cons uci rest ih =>
    intro move hmv m hres
    cases hu : o.from_uci uci with
    | error err =>
      rw [makeMoveLoop_parse_failure o s move uci rest err hmv hu] at hres
      exact ih move hmv m hres
    | ok m0 =>
      cases hleg : o.is_legal s.board m0 with
      | false =>
        rw [makeMoveLoop_ok_illegal o s move uci rest m0 hmv hu hleg] at hres
        exact ih Move.null (by decide) m hres
      | true =>
        rw [makeMoveLoop_ok_legal o s move uci rest m0 hmv hu hleg] at hres
        cases ht : Move.isTruthy m0 with
        | true =>
          rw [makeMoveLoop_truthy o s m0 rest ht] at hres
          simp only at hres
          cases hres
          exact ⟨hleg, ht⟩
        | false =>
          exact ih m0 ht m hres

/-- C3: for every board, oracle and input sequence on which Human.make_move
returns a move, the returned move satisfies the legality predicate is_legal
of the rules oracle on that board, so a move the oracle rejects is never
returned, and in particular the returned move is never the null move. -/
theorem human_make_move_legal {B : Type} (o : Oracle B) (s : HumanState B)
    (inputs : List String) (m : Move)
    (h : (Human.make_move o s inputs).move = some m) :
    o.is_legal s.board m = true ∧ m ≠ Move.null := by
  have hmain := makeMoveLoop_legal o s inputs Move.null (by decide) m h
  refine ⟨hmain.1, ?_⟩
  intro hnull
  have ht := hmain.2
  rw [hnull] at ht
  exact absurd ht (by decide)

/-- Witness for C3: on the sample oracle, after a malformed string and the
null-move string, the input e2e4 yields sampleMove, which the oracle accepts
and which is not the null move. -/
theorem human_make_move_legal_witness :
    (Human.make_move sampleOracle sampleState ["zz", "0000", "e2e4"]).move
        = some sampleMove
    ∧ sampleOracle.is_legal sampleState.board sampleMove = true
    ∧ sampleMove ≠ Move.null := by
  refine ⟨by decide, ?_⟩
  exact human_make_move_legal sampleOracle sampleState
    ["zz", "0000", "e2e4"] sampleMove (by decide)

/-- C4: malformed move text is handled entirely inside Human.make_move: the
parse failure of from_uci is caught, the format message and the remaining
time timer.seconds_left are reported, and the loop re-prompts by continuing
on the remaining inputs; well-formed but illegal text is likewise reported
as illegal with the remaining time and re-prompted. In both cases the call
equals the total continuation on the remaining inputs, so no parse failure
escapes to the caller. -/
theorem human_make_move_recovers {B : Type} (o : Oracle B)
    (s : HumanState B) (uci : String) (rest : List String) :
    (∀ err, o.from_uci uci = Except.error err →
      Human.make_move o s (uci :: rest) =
        { Human.make_move o s rest with
          output := Msg.prompt :: Msg.incorrectFormat ::
            Msg.secondsLeft s.timer.seconds_left ::
            (Human.make_move o s rest).output })
    ∧ (∀ m, o.from_uci uci = Except.ok m → o.is_legal s.board m = false →
      Human.make_move o s (uci :: rest) =
        { Human.make_move o s rest with
          output := Msg.prompt :: Msg.illegalMove ::
            Msg.secondsLeft s.timer.seconds_left ::
            (Human.make_move o s rest).output }) := by
  constructor
  · intro err hu
    exact makeMoveLoop_parse_failure o s Move.null uci rest err (by decide) hu
  · intro m hu hleg
    exact makeMoveLoop_ok_illegal o s Move.null uci rest m (by decide) hu hleg

/-- Witness for C4: on the sample oracle the malformed input zz and the
illegal input 0000 are both consumed with the corresponding report and the
remaining time, and the run continues on the remaining input. -/
theorem human_make_move_recovers_witness :
    (Human.make_move sampleOracle sampleState ["zz", "e2e4"] =
      { Human.make_move sampleOracle sampleState ["e2e4"] with
        output := Msg.prompt :: Msg.incorrectFormat ::
          Msg.secondsLeft sampleState.timer.seconds_left ::
          (Human.make_move sampleOracle sampleState ["e2e4"]).output })
    ∧ (Human.make_move sampleOracle sampleState ["0000", "e2e4"] =
      { Human.make_move sampleOracle sampleState ["e2e4"] with
        output := Msg.prompt :: Msg.illegalMove ::
          Msg.secondsLeft sampleState.timer.seconds_left ::
          (Human.make_move sampleOracle sampleState ["e2e4"]).output }) :=
  ⟨(human_make_move_recovers sampleOracle sampleState "zz" ["e2e4"]).1
      "invalid uci" rfl,
   (human_make_move_recovers sampleOracle sampleState "0000" ["e2e4"]).2
      Move.null rfl rfl⟩

/-- C5: Human.make_move leaves both its arguments unchanged: the board and
the timer it hands back are the board and the timer it was given, for every
oracle, state and input sequence. -/
theorem human_make_move_frame {B : Type} (o : Oracle B) (s : HumanState B)
    (inputs : List String) :
    (Human.make_move o s inputs).board = s.board ∧
    (Human.make_move o s inputs).timer = s.timer :=
  makeMoveLoop_frame o s inputs Move.null

/-- One game changes at most one tally, by at most one. -/
theorem tallyStep_le (t : Nat × Nat) (g : GOutcome) :
    (tallyStep t g).1 ≤ t.1 + 1 ∧ (tallyStep t g).2 ≤ t.2 + 1 ∧
    ((tallyStep t g).1 = t.1 ∨ (tallyStep t g).2 = t.2) := by
  obtain ⟨w, b⟩ := t
  cases g <;> simp [tallyStep]

/-- Invariant of the match loop: starting from tallies bounded by the
threshold n with at least one side strictly below, the loop keeps both
tallies bounded by n, reports a winner exactly when that side has reached n
while the other side is still below, plays each game on the fresh initial
board, stops at the first prefix of outcomes whose tallies meet the
threshold, and its final tallies are the fold of the consumed prefix. -/
theorem playMatchLoop_spec {B : Type} (n : Nat) (ib : B) :
    ∀ (games : List GOutcome) (tw tb w b : Nat) (res : Option Color)
      (log : List B),
      tw ≤ n → tb ≤ n → (tw < n ∨ tb < n) →
      playMatchLoop n ib (tw, tb) games = ((w, b), res, log) →
      (w ≤ n ∧ b ≤ n)
      ∧ (res = some Color.white → w = n ∧ b < n)
      ∧ (res = some Color.black → b = n ∧ w < n)
      ∧ (res = none → w < n ∧ b < n ∧ log.length = games.length)
      ∧ log = List.replicate log.length ib
      ∧ (∀ j, j < log.length →
          ((games.take j).foldl tallyStep (tw, tb)).1 < n ∧
          ((games.take j).foldl tallyStep (tw, tb)).2 < n)
      ∧ (w, b) = (games.take log.length).foldl tallyStep (tw, tb) := by
  intro games
  induction games with
  | nil =>
    intro tw tb w b res log h1 h2 h3 heq
    simp only [playMatchLoop] at heq
    split_ifs at heq with hw hb
    · simp only [Prod.mk.injEq] at heq
      obtain ⟨⟨ew, eb⟩, er, el⟩ := heq
      subst ew; subst eb; subst er; subst el
      refine ⟨⟨h1, h2⟩, ?_, ?_, ?_, ?_, ?_, ?_⟩
      · intro _; omega
      · intro hx; exact absurd hx (by decide)
      · intro hx; exact absurd hx (by decide)
      · simp
      · simp
      · simp
    · simp only [Prod.mk.injEq] at heq
      obtain ⟨⟨ew, eb⟩, er, el⟩ := heq
      subst ew; subst eb; subst er; subst el
      refine ⟨⟨h1, h2⟩, ?_, ?_, ?_, ?_, ?_, ?_⟩
      · intro hx; exact absurd hx (by decide)
      · intro _; omega
      · intro hx; exact absurd hx (by decide)
      · simp
      · simp
      · simp
    · simp only [Prod.mk.injEq] at heq
      obtain ⟨⟨ew, eb⟩, er, el⟩ := heq
      subst ew; subst eb; subst er; subst el
      refine ⟨⟨h1, h2⟩, ?_, ?_, ?_, ?_, ?_, ?_⟩
      · intro hx; exact absurd hx (by decide)
      · intro hx; exact absurd hx (by decide)
      · intro _; exact ⟨by omega, by omega, rfl⟩
      · simp
      · simp
      · simp
  | cons g rest ih =>
    intro tw tb w b res log h1 h2 h3 heq
    simp only [playMatchLoop] at heq
    split_ifs at heq with hw hb
    · simp only [Prod.mk.injEq] at heq
      obtain ⟨⟨ew, eb⟩, er, el⟩ := heq
      subst ew; subst eb; subst er; subst el
      refine ⟨⟨h1, h2⟩, ?_, ?_, ?_, ?_, ?_, ?_⟩
      · intro _; omega
      · intro hx; exact absurd hx (by decide)
      · intro hx; exact absurd hx (by decide)
      · simp
      · simp
      · simp
    · simp only [Prod.mk.injEq] at heq
      obtain ⟨⟨ew, eb⟩, er, el⟩ := heq
      subst ew; subst eb; subst er; subst el
      refine ⟨⟨h1, h2⟩, ?_, ?_, ?_, ?_, ?_, ?_⟩
      · intro hx; exact absurd hx (by decide)
      · intro _; omega
      · intro hx; exact absurd hx (by decide)
      · simp
      · simp
      · simp
    · cases hpl : playMatchLoop n ib (tallyStep (tw, tb) g) rest with
      | mk rt rrl =>
        obtain ⟨rw1, rb1⟩ := rt
        obtain ⟨rres, rlog⟩ := rrl
        rw [hpl] at heq
        simp only [Prod.mk.injEq] at heq
        obtain ⟨⟨ew, eb⟩, er, el⟩ := heq
        subst ew; subst eb; subst er; subst el
        have hts := tallyStep_le (tw, tb) g
        have hI1 : (tallyStep (tw, tb) g).1 ≤ n := by omega
        have hI2 : (tallyStep (tw, tb) g).2 ≤ n := by omega
        have hI3 : (tallyStep (tw, tb) g).1 < n ∨
            (tallyStep (tw, tb) g).2 < n := by
          rcases hts.2.2 with hx | hx
          · left; omega
          · right; omega
        have hpl2 : playMatchLoop n ib
            ((tallyStep (tw, tb) g).1, (tallyStep (tw, tb) g).2) rest
            = ((rw1, rb1), rres, rlog) := by
          rw [← hpl]
        have IH := ih (tallyStep (tw, tb) g).1 (tallyStep (tw, tb) g).2
          rw1 rb1 rres rlog hI1 hI2 hI3 hpl2
        refine ⟨IH.1, IH.2.1, IH.2.2.1, ?_, ?_, ?_, ?_⟩
        · intro hn
          obtain ⟨hawb, habb, hlen⟩ := IH.2.2.2.1 hn
          exact ⟨hawb, habb, by simp [hlen]⟩
        · have := IH.2.2.2.2.1
          simp only [List.length_cons, List.replicate_succ]
          exact congrArg (fun l => ib :: l) this
        · intro j hj
          cases j with
          | zero => simp; omega
          | succ j =>
            have hj2 : j < rlog.length := by
              simp only [List.length_cons] at hj; omega
            have := IH.2.2.2.2.2.1 j hj2
            simpa [List.take_succ_cons] using this
        · have := IH.2.2.2.2.2.2
          simp only [List.length_cons, List.take_succ_cons, List.foldl_cons]
          exact this

/-- C8: for every match with win-count threshold n of at least one, neither
side accumulated win tally ever exceeds n (neither at the end nor after any
played prefix of games), the match ends reporting a winner exactly when that
side first reaches n (every earlier prefix has both tallies below n, and no
further game is consumed after the threshold is met), a draw changes no
tally, and every played game starts from the fresh initial board. -/
theorem play_match_threshold {B : Type} (n : Nat) (ib : B)
    (games : List GOutcome) (w b : Nat) (res : Option Color) (log : List B)
    (hn : 1 ≤ n) (h : play_match n ib games = ((w, b), res, log)) :
    (w ≤ n ∧ b ≤ n)
    ∧ (res = some Color.white → w = n ∧ b < n)
    ∧ (res = some Color.black → b = n ∧ w < n)
    ∧ (res = none → w < n ∧ b < n ∧ log.length = games.length)
    ∧ log = List.replicate log.length ib
    ∧ (∀ j, j < log.length →
        ((games.take j).foldl tallyStep (0, 0)).1 < n ∧
        ((games.take j).foldl tallyStep (0, 0)).2 < n)
    ∧ (w, b) = (games.take log.length).foldl tallyStep (0, 0)
    ∧ (∀ t : Nat × Nat, tallyStep t GOutcome.draw = t) := by
  have hmain := playMatchLoop_spec n ib games 0 0 w b res log
    (by omega) (by omega) (by omega) h
  exact ⟨hmain.1, hmain.2.1, hmain.2.2.1, hmain.2.2.2.1,
    hmain.2.2.2.2.1, hmain.2.2.2.2.2.1, hmain.2.2.2.2.2.2,
    fun t => by obtain ⟨x, y⟩ := t; rfl⟩

/-- Witness for C8, threshold two: white wins game one, game two is drawn,
white wins game three and the match ends with overall winner white without
consuming the fourth outcome; three games were played, each on the fresh
initial board, and the final tallies are two and zero. -/
theorem play_match_threshold_witness :
    play_match 2 () [GOutcome.whiteWins, GOutcome.draw, GOutcome.whiteWins,
        GOutcome.blackWins] = ((2, 0), some Color.white, [(), (), ()])
    ∧ (2 ≤ 2 ∧ 0 ≤ 2)
    ∧ (2 = 2 ∧ 0 < 2) :=
  ⟨rfl,
   (play_match_threshold 2 () [GOutcome.whiteWins, GOutcome.draw,
      GOutcome.whiteWins, GOutcome.blackWins] 2 0 (some Color.white)
      [(), (), ()] (by omega) rfl).1,
   (play_match_threshold 2 () [GOutcome.whiteWins, GOutcome.draw,
      GOutcome.whiteWins, GOutcome.blackWins] 2 0 (some Color.white)
      [(), (), ()] (by omega) rfl).2.1 rfl⟩

/-- C1 counterexample: on concrete registries, an unknown white AI name
exits with status 1 and an unknown timer name with status 2, but an unknown
display-mode name does not exit with any status: the NonExistentMatch
failure has no handler in cli_interface and propagates as an uncaught
exception, refuting the claim that each configuration error category is
surfaced to the operator with a distinct process exit status. -/
theorem cli_unknown_display_mode_not_exit :
    cli_interface stubAIs stubTimers stubModes stubPlay stubRecordDict
        badModeConfig
      = CliOutcome.uncaught (MainErr.nonExistentMatch ("headless"))
    ∧ cli_interface stubAIs stubTimers stubModes stubPlay stubRecordDict
        badWhiteConfig = CliOutcome.exited 1
    ∧ cli_interface stubAIs stubTimers stubModes stubPlay stubRecordDict
        badTimerConfig = CliOutcome.exited 2 :=
  ⟨rfl, rfl, rfl⟩

/-- C1 (amended): every configuration error category — unknown AI name for
white or black, unknown timer name, unknown display-mode name — is raised
during setup, before match.play_match is called (the effect log of main is
empty), as the corresponding named failure; cli_interface surfaces unknown
AI names with exit status 1 and unknown timer names with the distinct exit
status 2, while the NonExistentMatch failure for an unknown display-mode
name has no handler in cli_interface and propagates as an uncaught
exception rather than a distinct exit status. -/
theorem cli_config_error_handling {AI M J : Type} (AIs : String → Option AI)
    (timers : String → Option (ℚ → ℚ → Timer))
    (match_modes : String → Option M)
    (play : MatchSt AI → Color × MatchSt AI)
    (recordDict : MatchSt AI → J) (cfg : Config) :
    (AIs cfg.white = none →
      Chesster.main AIs timers match_modes play recordDict cfg =
          ([], Except.error (MainErr.nonExistentAI cfg.white))
      ∧ cli_interface AIs timers match_modes play recordDict cfg =
          CliOutcome.exited 1)
    ∧ (∀ wa, AIs cfg.white = some wa → AIs cfg.black = none →
      Chesster.main AIs timers match_modes play recordDict cfg =
          ([], Except.error (MainErr.nonExistentAI cfg.black))
      ∧ cli_interface AIs timers match_modes play recordDict cfg =
          CliOutcome.exited 1)
    ∧ (∀ wa ba, AIs cfg.white = some wa → AIs cfg.black = some ba →
        timers cfg.timer = none →
      Chesster.main AIs timers match_modes play recordDict cfg =
          ([], Except.error (MainErr.nonExistentTimer cfg.timer))
      ∧ cli_interface AIs timers match_modes play recordDict cfg =
          CliOutcome.exited 2)
    ∧ (∀ wa ba tc, AIs cfg.white = some wa → AIs cfg.black = some ba →
        timers cfg.timer = some tc →
        match_modes cfg.display_mode = none →
      Chesster.main AIs timers match_modes play recordDict cfg =
          ([], Except.error (MainErr.nonExistentMatch cfg.display_mode))
      ∧ cli_interface AIs timers match_modes play recordDict cfg =
          CliOutcome.uncaught (MainErr.nonExistentMatch cfg.display_mode)) := by
  refine ⟨?_, ?_, ?_, ?_⟩
  · intro hw
    constructor
    · simp [Chesster.main, mainSetup, hw]
    · simp [cli_interface, Chesster.main, mainSetup, hw]
  · intro wa hw hb
    constructor
    · simp [Chesster.main, mainSetup, hw, hb]
    · simp [cli_interface, Chesster.main, mainSetup, hw, hb]
  · intro wa ba hw hb ht
    constructor
    · simp [Chesster.main, mainSetup, hw, hb, ht]
    · simp [cli_interface, Chesster.main, mainSetup, hw, hb, ht]
  · intro wa ba tc hw hb ht hm
    constructor
    · simp [Chesster.main, mainSetup, hw, hb, ht, hm]
    · simp [cli_interface, Chesster.main, mainSetup, hw, hb, ht, hm]

/-- Witness for C1 (amended), on the stub registries: the unknown white AI
name exits with status 1, the unknown timer name with status 2, and the
unknown display-mode name yields the uncaught NonExistentMatch failure. -/
theorem cli_config_error_handling_witness :
    (stubAIs "alphazero" = none
      ∧ cli_interface stubAIs stubTimers stubModes stubPlay stubRecordDict
          badWhiteConfig = CliOutcome.exited 1)
    ∧ cli_interface stubAIs stubTimers stubModes stubPlay stubRecordDict
        badTimerConfig = CliOutcome.exited 2
    ∧ cli_interface stubAIs stubTimers stubModes stubPlay stubRecordDict
        badModeConfig
      = CliOutcome.uncaught (MainErr.nonExistentMatch ("headless")) :=
  ⟨⟨rfl, ((cli_config_error_handling stubAIs stubTimers stubModes stubPlay
      stubRecordDict badWhiteConfig).1 rfl).2⟩,
   ((cli_config_error_handling stubAIs stubTimers stubModes stubPlay
      stubRecordDict badTimerConfig).2.2.1 () () rfl rfl rfl).2,
   ((cli_config_error_handling stubAIs stubTimers stubModes stubPlay
      stubRecordDict badModeConfig).2.2.2 () () BasicTimer.init
      rfl rfl rfl rfl).2⟩

/-- C2 counterexample: the timer that main builds for a BasicTimer
configuration with start_seconds 600 and increment_seconds 2 carries
neither the configured budget nor the configured increment: the timer each
player receives has the unbounded budget, not 600 seconds, and increment 0,
not 2, because the BasicTimer constructor ignores its arguments. -/
theorem basicTimer_drops_configured_budget :
    (mkMatch () () (BasicTimer.init 600 2) 1).whiteTimer.seconds_left
        = TimerVal.unbounded
    ∧ (mkMatch () () (BasicTimer.init 600 2) 1).whiteTimer.seconds_left
        ≠ TimerVal.finite 600
    ∧ (mkMatch () () (BasicTimer.init 600 2) 1).whiteTimer.increment = 0
    ∧ (mkMatch () () (BasicTimer.init 600 2) 1).whiteTimer.increment ≠ 2 := by
  refine ⟨rfl, ?_, rfl, ?_⟩
  · intro hx
    exact TimerVal.noConfusion hx
  · intro hx
    simp [mkMatch, BasicTimer.init] at hx

/-- C2 (amended): main constructs one timer per match by applying the
configured timer constructor to the configured start_seconds and
increment_seconds, and the white and black players each have their own
Timer field holding that constructed timer; for timer kinds whose
constructor honours its arguments those timers carry the configured budget
and increment, but for BasicTimer the constructor ignores its arguments, so
both players receive a timer with the unbounded budget and increment 0
rather than the configured values. -/
theorem setup_timer_per_player {AI M : Type} (AIs : String → Option AI)
    (timers : String → Option (ℚ → ℚ → Timer))
    (match_modes : String → Option M) (cfg : Config)
    (tc : ℚ → ℚ → Timer) (m : MatchSt AI)
    (htc : timers cfg.timer = some tc)
    (hm : mainSetup AIs timers match_modes cfg = Except.ok m) :
    m.whiteTimer = tc cfg.start_seconds cfg.increment_seconds
    ∧ m.blackTimer = tc cfg.start_seconds cfg.increment_seconds
    ∧ (tc = BasicTimer.init →
        m.whiteTimer.seconds_left = TimerVal.unbounded
        ∧ m.whiteTimer.increment = 0
        ∧ m.blackTimer.seconds_left = TimerVal.unbounded
        ∧ m.blackTimer.increment = 0) := by
  cases hw : AIs cfg.white with
  | none => simp [mainSetup, hw] at hm
  | some wa =>
    cases hb : AIs cfg.black with
    | none => simp [mainSetup, hw, hb] at hm
    | some ba =>
      cases hmm : match_modes cfg.display_mode with
      | none => simp [mainSetup, hw, hb, htc, hmm] at hm
      | some md =>
        simp only [mainSetup, hw, hb, htc, hmm, Except.ok.injEq] at hm
        subst hm
        refine ⟨rfl, rfl, ?_⟩
        intro htcb
        subst htcb
        exact ⟨rfl, rfl, rfl, rfl⟩

/-- Witness for C2 (amended), on the stub registries and goodConfig: both
player timers equal the BasicTimer built from 600 and 2, whose budget is
unbounded and whose increment is 0. -/
theorem setup_timer_per_player_witness :
    (mkMatch () () (BasicTimer.init 600 2) 1).whiteTimer
        = BasicTimer.init 600 2
    ∧ (mkMatch () () (BasicTimer.init 600 2) 1).whiteTimer.seconds_left
        = TimerVal.unbounded
    ∧ (mkMatch () () (BasicTimer.init 600 2) 1).whiteTimer.increment = 0 :=
  ⟨(setup_timer_per_player stubAIs stubTimers stubModes goodConfig
      BasicTimer.init (mkMatch () () (BasicTimer.init 600 2) 1)
      rfl rfl).1,
   ((setup_timer_per_player stubAIs stubTimers stubModes goodConfig
      BasicTimer.init (mkMatch () () (BasicTimer.init 600 2) 1)
      rfl rfl).2.2 rfl).1,
   ((setup_timer_per_player stubAIs stubTimers stubModes goodConfig
      BasicTimer.init (mkMatch () () (BasicTimer.init 600 2) 1)
      rfl rfl).2.2 rfl).2.1⟩

/-- C9: whenever main returns a value rather than raising, that value, the
process exit code, is 0 — for every registry, every match-play collaborator
and hence every match outcome: the winner computed inside main has no
effect on the returned exit code. -/
theorem main_exit_code_zero {AI M J : Type} (AIs : String → Option AI)
    (timers : String → Option (ℚ → ℚ → Timer))
    (match_modes : String → Option M)
    (play : MatchSt AI → Color × MatchSt AI)
    (recordDict : MatchSt AI → J) (cfg : Config)
    (effs : List (Effect J)) (c : Nat)
    (h : Chesster.main AIs timers match_modes play recordDict cfg
          = (effs, Except.ok c)) :
    c = 0 := by
  unfold Chesster.main at h
  cases hs : mainSetup AIs timers match_modes cfg with
  | error e => rw [hs] at h; simp at h
  | ok m =>
    rw [hs] at h
    simp only [Prod.mk.injEq] at h
    have h2 := h.2
    simp at h2
    omega

/-- Witness for C9: on the stub registries main returns exit code 0 with a
successful run. -/
theorem main_exit_code_zero_witness :
    Chesster.main stubAIs stubTimers stubModes stubPlay stubRecordDict
        goodConfig = ([Effect.playedMatch], Except.ok 0)
    ∧ (0 : Nat) = 0 :=
  ⟨rfl,
   main_exit_code_zero stubAIs stubTimers stubModes stubPlay stubRecordDict
     goodConfig [Effect.playedMatch] 0 rfl⟩

/-- C10: main writes a serialized record if and only if record_file is
configured: with record_file none, no file-write effect occurs at all, and
with record_file a path p and a successful setup, the effect log is exactly
the played match followed by one write of the serialized record — the
document recordDict of the match state after play, modelling
json.dump of match.record.to_dict() — to exactly the path p. -/
theorem main_record_file_writes {AI M J : Type} (AIs : String → Option AI)
    (timers : String → Option (ℚ → ℚ → Timer))
    (match_modes : String → Option M)
    (play : MatchSt AI → Color × MatchSt AI)
    (recordDict : MatchSt AI → J) (cfg : Config) :
    (cfg.record_file = none → ∀ p d, Effect.wroteFile p d ∉
        (Chesster.main AIs timers match_modes play recordDict cfg).1)
    ∧ (∀ p m, cfg.record_file = some p →
        mainSetup AIs timers match_modes cfg = Except.ok m →
        (Chesster.main AIs timers match_modes play recordDict cfg).1 =
          [Effect.playedMatch,
           Effect.wroteFile p (recordDict (play m).2)]) := by
  constructor
  · intro hnone p d
    cases hs : mainSetup AIs timers match_modes cfg with
    | error e => simp [Chesster.main, hs]
    | ok m => simp [Chesster.main, hs, hnone]
  · intro p m hsome hs
    simp [Chesster.main, hs, hsome]

/-- Witness for C10: on the stub registries, the run without a record file
performs no write, and the run with record file out.json writes exactly
that file with the serialized record document. -/
theorem main_record_file_writes_witness :
    Effect.wroteFile ("x.json") (3 : Nat) ∉
      (Chesster.main stubAIs stubTimers stubModes stubPlay stubRecordDict
        goodConfig).1
    ∧ (Chesster.main stubAIs stubTimers stubModes stubPlay stubRecordDict
        recordConfig).1
      = [Effect.playedMatch, Effect.wroteFile ("out.json") 7] :=
  ⟨(main_record_file_writes stubAIs stubTimers stubModes stubPlay
      stubRecordDict goodConfig).1 rfl "x.json" 3,
   (main_record_file_writes stubAIs stubTimers stubModes stubPlay
      stubRecordDict recordConfig).2 "out.json"
     (mkMatch () () (BasicTimer.init 600 2) 1) rfl rfl⟩
